import Mathlib

/-!
Shallow embedding of the Google-Sheets polling service of this repository
(`scripts/automated_polling_service.py`): the `ChangeDetector` fingerprint
diffing and the `DataProcessor` catalog merge, together with proofs of the
specified properties.

Modelling conventions:
* Spreadsheet snapshots are `List (List String)` — first row is the header,
  exactly as the Python code receives them.
* The code uses MD5 hashes of a canonical JSON serialization purely as
  proxies for content equality.  The serialization is injective, and the code
  design treats MD5 as collision free, so a hash is modelled as the content
  it summarizes: the whole-data hash of a non-empty snapshot is the snapshot
  itself, the hash of a row is the row.  The empty snapshot's sentinel hash
  `""` is modelled as `[]`, which never collides with the hash of a
  non-empty snapshot.
* Timestamp fields that the code writes but never reads (`timestamp` inside a
  fingerprint, `modified_at`, `last_synchronized`) are omitted; `last_sync`
  is kept because the spec refers to it, with the clock passed in as a value.
* File I/O is modelled by explicit outcome parameters (`LoadOutcome`,
  `SaveOutcome`): the Python `try/except` blocks become total functions whose
  `Except` result records whether an exception escapes.
-/

/-- Model of Python `str.strip()`: drop whitespace from both ends. -/
def py_strip (s : String) : String :=
  String.mk (((s.data.dropWhile Char.isWhitespace).reverse.dropWhile Char.isWhitespace).reverse)

/-- Model of Python `str.lower()` (ASCII case folding, as used on headers). -/
def py_lower (s : String) : String :=
  String.mk (s.data.map Char.toLower)

/-- Lexicographic comparison of character lists by code point, the order
Python uses on strings. -/
def charListLe : List Char → List Char → Bool
  | [], _ => true
  | _ :: _, [] => false
  | a :: as, b :: bs =>
    if a.toNat < b.toNat then true
    else if b.toNat < a.toNat then false
    else charListLe as bs

/-- Python string `<=` by code points. -/
def py_le (a b : String) : Bool :=
  charListLe a.data b.data

/-- Insert a string into a sorted list, keeping it sorted. -/
def insertSorted (s : String) : List String → List String
  | [] => [s]
  | x :: t => if py_le s x then s :: x :: t else x :: insertSorted s t

/-- Model of Python `sorted` on a list of strings. -/
def py_sorted (l : List String) : List String :=
  l.foldr insertSorted []

/-- Association-list lookup, first match wins (Python `dict` membership is on
unique keys, so first match is the only match). -/
def assoc_get {α β : Type} [DecidableEq α] (k : α) : List (α × β) → Option β
  | [] => none
  | (k2, v) :: t => if k = k2 then some v else assoc_get k t

/-- Lookup in a Python `dict` built by successive assignments recorded in
insertion order: the last binding of a key wins. -/
def dict_get {α β : Type} [DecidableEq α] (l : List (α × β)) (k : α) : Option β :=
  assoc_get k l.reverse

/-- Fingerprint of a snapshot (`ChangeDetector.create_data_fingerprint`):
`data_hash` is the MD5 of the whole snapshot (modelled as the snapshot),
`row_hashes` maps the 1-based index of every data row to that row's hash
(modelled as the row), and `row_count` excludes the header. -/
structure Fingerprint where
  row_count : Nat
  data_hash : List (List String)
  row_hashes : List (Nat × List String)
  deriving DecidableEq, Repr

/-- Per-row hashes keyed by position, starting from index `s` (the code
enumerates data rows from 1). -/
def rowHashes : List (List String) → Nat → List (Nat × List String)
  | [], _ => []
  | r :: rs, s => (s, r) :: rowHashes rs (s + 1)

/-- `ChangeDetector.create_data_fingerprint`: empty data gets the sentinel
fingerprint, otherwise hash the whole snapshot and each data row. -/
def create_data_fingerprint (sheets_data : List (List String)) : Fingerprint :=
  if sheets_data.isEmpty then
    { row_count := 0, data_hash := [], row_hashes := [] }
  else
    { row_count := sheets_data.length - 1
      data_hash := sheets_data
      row_hashes := rowHashes (sheets_data.drop 1) 1 }

/-- One entry of `changes["modified_rows"]`. -/
structure ModifiedRow where
  row_index : Nat
  row_data : List String
  previous_hash : List String
  current_hash : List String
  deriving DecidableEq, Repr

/-- One entry of `changes["deleted_rows"]`. -/
structure DeletedRow where
  row_index : Nat
  previous_hash : List String
  deriving DecidableEq, Repr

/-- The change set returned by `ChangeDetector.detect_changes`. -/
structure Changes where
  has_changes : Bool
  new_rows : List (List String)
  modified_rows : List ModifiedRow
  deleted_rows : List DeletedRow
  new_row_count : Nat
  modified_row_count : Nat
  deleted_row_count : Nat
  total_rows : Nat
  previous_rows : Nat
  deriving DecidableEq, Repr

/-- The modified-row scan of `detect_changes`: for every current row hash
whose index also appears in the previous hashes with a different value (and
which is in bounds of the current data), record a `ModifiedRow`. -/
def find_modified_rows (curH prevH : List (Nat × List String))
    (current_data : List (List String)) : List ModifiedRow :=
  curH.filterMap (fun p =>
    match assoc_get p.1 prevH with
    | none => none
    | some ph =>
      if ph ≠ p.2 ∧ p.1 ≤ current_data.length - 1 then
        some { row_index := p.1, row_data := current_data.getD p.1 []
               previous_hash := ph, current_hash := p.2 }
      else none)

/-- The deleted-row scan of `detect_changes`: every previous index missing
from the current hashes is a deletion. -/
def find_deleted_rows (prevH curH : List (Nat × List String)) : List DeletedRow :=
  prevH.filterMap (fun p =>
    match assoc_get p.1 curH with
    | some _ => none
    | none => some { row_index := p.1, previous_hash := p.2 })

/-- Core of `ChangeDetector.detect_changes`: diff the current snapshot
against the previously stored fingerprint (`none` models an absent or empty
`sheet_fingerprint` entry) and return the change set together with the
fingerprint that the detector stores back unconditionally. -/
def detect_changes (prev : Option Fingerprint) (current_data : List (List String)) :
    Changes × Fingerprint :=
  let cf := create_data_fingerprint current_data
  let base : Changes :=
    { has_changes := false, new_rows := [], modified_rows := [], deleted_rows := []
      new_row_count := 0, modified_row_count := 0, deleted_row_count := 0
      total_rows := cf.row_count
      previous_rows := (prev.map Fingerprint.row_count).getD 0 }
  if some cf.data_hash = prev.map Fingerprint.data_hash then
    (base, cf)
  else
    let prevRowCount := (prev.map Fingerprint.row_count).getD 0
    let prevRowHashes := (prev.map Fingerprint.row_hashes).getD []
    let newRows :=
      if cf.row_count > prevRowCount then current_data.drop (prevRowCount + 1) else []
    let modRows := find_modified_rows cf.row_hashes prevRowHashes current_data
    let delRows := find_deleted_rows prevRowHashes cf.row_hashes
    ({ base with
        has_changes := true
        new_rows := newRows, new_row_count := newRows.length
        modified_rows := modRows, modified_row_count := modRows.length
        deleted_rows := delRows, deleted_row_count := delRows.length },
      cf)

/-- The detector's persistent metadata (`polling_metadata.json`), restricted
to the fields the code reads. -/
structure Metadata where
  sheet_fingerprint : Option Fingerprint
  last_sync : Option String
  deriving DecidableEq, Repr

/-- `detect_changes` including its unconditional metadata update: the stored
fingerprint becomes the current one and `last_sync` is set to the clock
value `now`, whether or not changes were found. -/
def detect_changes_meta (m : Metadata) (now : String) (data : List (List String)) :
    Changes × Metadata :=
  let r := detect_changes m.sheet_fingerprint data
  (r.1, { sheet_fingerprint := some r.2, last_sync := some now })

/-- Outcome of reading the metadata file: a successful read (the file may be
absent, modelled by the file state `none`), or an I/O error. -/
inductive LoadOutcome where
  | ok
  | ioError
  deriving DecidableEq, Repr

/-- Outcome of writing a file. -/
inductive SaveOutcome where
  | success
  | ioError
  deriving DecidableEq, Repr

/-- `ChangeDetector._load_metadata`: a missing file yields the fresh default
state (empty fingerprint) and any other error is caught, logged, and yields
an empty metadata dict — both read back as "no stored fingerprint". -/
def load_metadata (file : Option Fingerprint) : LoadOutcome → Option Fingerprint
  | LoadOutcome.ok => file
  | LoadOutcome.ioError => none

/-- `ChangeDetector._save_metadata`: on success the file now holds the new
fingerprint; an I/O error is caught and logged, leaving the file as it was. -/
def save_metadata_file (so : SaveOutcome) (file : Option Fingerprint)
    (fp : Fingerprint) : Option Fingerprint :=
  match so with
  | SaveOutcome.success => some fp
  | SaveOutcome.ioError => file

/-- One full `detect_changes` call seen from the metadata file: load (errors
swallowed), diff, save (errors swallowed).  The `Except` result records
whether an exception escapes to the caller; every path returns `Except.ok`. -/
def detect_changes_full (file : Option Fingerprint) (lo : LoadOutcome)
    (so : SaveOutcome) (data : List (List String)) :
    Except String (Changes × Option Fingerprint) :=
  let prev := load_metadata file lo
  let r := detect_changes prev data
  Except.ok (r.1, save_metadata_file so file r.2)

/-- The `_modification_info` block attached by `process_modified_rows`
(the `modified_at` timestamp, write-only, is omitted). -/
structure ModInfo where
  row_index : Nat
  previous_hash : List String
  current_hash : List String
  deriving DecidableEq, Repr

/-- A catalog product record as built by `_create_product_from_row`, plus the
optional `_modification_info` key. -/
structure Product where
  name : String
  model : String
  category : String
  specifications : String
  features : String
  hero_image : String
  secondary_image : String
  modification_info : Option ModInfo := none
  deriving DecidableEq, Repr

/-- The `get_field` helper of `_create_product_from_row`: try each candidate
header name, first by exact match in the row dict, then case-insensitively
through the lowercased header map; unmatched names fall through, and no
match at all yields the empty string. -/
def get_field (row_data header_map : List (String × String)) :
    List String → String
  | [] => ""
  | n :: rest =>
    match dict_get row_data n with
    | some v => py_strip v
    | none =>
      match dict_get header_map (py_lower n) with
      | some orig =>
        match dict_get row_data orig with
        | some v => py_strip v
        | none => ""
      | none => get_field row_data header_map rest

/-- `DataProcessor._create_product_from_row`: pad or truncate the row to the
header length, build the header-to-value dict and the lowercase header map,
and extract the product fields; a row without a product name is rejected. -/
def create_product_from_row (row headers : List String) : Option Product :=
  let row :=
    if row.length < headers.length then
      row ++ List.replicate (headers.length - row.length) ""
    else row.take headers.length
  let row_data := headers.zip row
  let header_map := headers.map (fun h => (py_lower h, h))
  let name := get_field row_data header_map ["Product Name"]
  if name = "" then none
  else
    some { name := name
           model := get_field row_data header_map ["Model Number"]
           category := get_field row_data header_map ["Category"]
           specifications := get_field row_data header_map ["Specifications"]
           features := get_field row_data header_map ["Features"]
           hero_image := get_field row_data header_map ["Hero Image"]
           secondary_image := get_field row_data header_map ["Secondary Image"] }

/-- `DataProcessor.process_new_rows`: convert each row, skipping rows that do
not yield a product (per-row failures are caught and skipped). -/
def process_new_rows (new_rows : List (List String)) (headers : List String) :
    List Product :=
  new_rows.filterMap (fun r => create_product_from_row r headers)

/-- `DataProcessor.process_modified_rows`: convert each modified row and
attach its `_modification_info`. -/
def process_modified_rows (modified_rows : List ModifiedRow)
    (headers : List String) : List Product :=
  modified_rows.filterMap (fun m =>
    (create_product_from_row m.row_data headers).map (fun p =>
      { p with modification_info := some ⟨m.row_index, m.previous_hash, m.current_hash⟩ }))

/-- Extraction of `current_sheet_models` in `_poll_and_process`: the stripped
first cell of every non-empty data row, keeping only non-empty models. -/
def extract_sheet_models (sheets_data : List (List String)) : List String :=
  (sheets_data.drop 1).filterMap (fun row =>
    match row with
    | [] => none
    | c :: _ => if py_strip c = "" then none else some (py_strip c))

/-- Catalog metadata block, restricted to the fields the code computes
(`last_synchronized`, write-only, is omitted). -/
structure CatalogMeta where
  total_products : Nat
  categories : List String
  categories_count : Nat
  source : String
  deriving DecidableEq, Repr

/-- The persisted catalog file: metadata plus the product list. -/
structure CatalogData where
  metadata : CatalogMeta
  products : List Product
  deriving DecidableEq, Repr

/-- The dict comprehension in `_update_modified_products` that drops keys
starting with an underscore: it strips exactly `_modification_info`. -/
def clean_product (p : Product) : Product :=
  { p with modification_info := none }

/-- The linear scan with `break` in `_update_modified_products`: index of the
first catalog entry whose model equals the given one. -/
def find_model_idx (model : String) : List Product → Option Nat
  | [] => none
  | p :: t =>
    if p.model = model then some 0
    else (find_model_idx model t).map (fun i => i + 1)

/-- `DataProcessor._update_modified_products`: for each modified product with
a non-empty model, replace the first catalog entry with that model by the
cleaned product; products without a model, or with no match, are skipped.
Returns the new list and the update count. -/
def update_modified_products (products : List Product)
    (modified_products : List Product) : List Product × Nat :=
  modified_products.foldl (fun st mp =>
    if mp.model = "" then st
    else
      match find_model_idx mp.model st.1 with
      | some i => (st.1.set i (clean_product mp), st.2 + 1)
      | none => st) (products, 0)

/-- Python `enumerate` starting at index `i`. -/
def enumFrom {α : Type} (i : Nat) : List α → List (Nat × α)
  | [] => []
  | a :: t => (i, a) :: enumFrom (i + 1) t

/-- `DataProcessor._remove_deleted_products`: collect the indices of catalog
entries whose non-empty model is not among the current sheet models, then pop
them in reverse order.  Returns the new list and the removal count. -/
def remove_deleted_products (products : List Product)
    (current_sheet_models : List String) : List Product × Nat :=
  let toRemove := (enumFrom 0 products).filter (fun ip =>
    ip.2.model != "" && !(current_sheet_models.contains ip.2.model))
  (toRemove.reverse.foldl (fun acc ip => acc.eraseIdx ip.1) products,
    toRemove.length)

/-- `DataProcessor._update_metadata_stats`: recompute totals and the sorted
list of distinct non-empty categories from the full product list. -/
def update_metadata_stats (pd : CatalogData) : CatalogData :=
  let categories :=
    py_sorted ((pd.products.filterMap (fun p =>
      if p.category = "" then none else some p.category)).dedup)
  { pd with metadata :=
      { total_products := pd.products.length
        categories := categories
        categories_count := categories.length
        source := "google_sheets_import" } }

/-- `DataProcessor._save_products`: refresh `total_products`, then write the
file; an I/O error is logged and re-raised (`Except.error`).  On failure the
previously persisted file is modelled as unchanged. -/
def save_products (so : SaveOutcome) (pd : CatalogData) :
    Except String CatalogData :=
  let pd :=
    { pd with metadata := { pd.metadata with total_products := pd.products.length } }
  match so with
  | SaveOutcome.success => Except.ok pd
  | SaveOutcome.ioError => Except.error "Error saving products"

/-- `DataProcessor.update_catalog`: given the persisted catalog, append the
new products, apply the modified products, remove entries whose model left
the sheet (only when a non-empty model list is supplied), recompute metadata
stats and save.  Any exception inside the body — in particular a save
failure — is caught and turned into a `false` return; the result pairs the
returned boolean with the catalog state persisted after the call. -/
def update_catalog (catalog : CatalogData) (new_products modified_products : List Product)
    (current_sheet_models : List String) (so : SaveOutcome) : Bool × CatalogData :=
  if new_products = [] ∧ modified_products = [] ∧ current_sheet_models = [] then
    (false, catalog)
  else
    let pd1 := { catalog with products := catalog.products ++ new_products }
    let pd2 := { pd1 with
      products := (update_modified_products pd1.products modified_products).1 }
    let pd3 :=
      if current_sheet_models ≠ [] then
        { pd2 with
          products := (remove_deleted_products pd2.products current_sheet_models).1 }
      else pd2
    let pd4 := update_metadata_stats pd3
    match save_products so pd4 with
    | Except.ok saved => (true, saved)
    | Except.error _ => (false, catalog)

/-- The spec's catalog invariant, as a relation for `List.Pairwise`: two
entries may not share a non-empty model number. -/
def ModelDistinct (p q : Product) : Prop :=
  p.model ≠ "" → p.model ≠ q.model

instance (p q : Product) : Decidable (ModelDistinct p q) :=
  inferInstanceAs (Decidable (p.model ≠ "" → p.model ≠ q.model))

/-- Empty catalog metadata block, used by concrete scenarios. -/
def meta0 : CatalogMeta :=
  { total_products := 0, categories := [], categories_count := 0, source := "" }

/-- An empty persisted catalog. -/
def cat_empty : CatalogData :=
  { metadata := meta0, products := [] }

/-- Convenience constructor for concrete product records. -/
def mkProduct (name model category : String) : Product :=
  { name := name, model := model, category := category, specifications := ""
    features := "", hero_image := "", secondary_image := "", modification_info := none }

/-- Concrete catalog entry used in the merge scenarios. -/
def pW : Product := mkProduct "Alpha" "M1" "C1"

/-- Concrete one-entry catalog used in the merge scenarios. -/
def cW : CatalogData :=
  { metadata := meta0, products := [pW] }

/-- Header of the spec's worked example. -/
def c6_header : List String := ["Model", "Product Name", "Category"]

/-- Previous snapshot of the worked example: header plus two data rows. -/
def c6_prev : List (List String) :=
  [c6_header, ["M1", "Alpha", "C1"], ["M2", "Beta", "C2"]]

/-- The appended row of the worked example. -/
def c6_new_row : List String := ["M3", "Widget", "Gadgets"]

/-- Current snapshot of the worked example. -/
def c6_cur : List (List String) := c6_prev ++ [c6_new_row]

/-- Change set the detector reports for the worked example. -/
def c6_changes : Changes :=
  (detect_changes (some (create_data_fingerprint c6_prev)) c6_cur).1

/-- Products the processor builds from the worked example's new rows. -/
def c6_new_products : List Product :=
  process_new_rows c6_changes.new_rows c6_header

/-- Catalog state before the worked example's merge: one entry per existing
data row. -/
def c6_catalog : CatalogData :=
  { metadata := meta0, products := [mkProduct "Alpha" "M1" "C1", mkProduct "Beta" "M2" "C2"] }

/-- Result of pushing the worked example's change set through the merge. -/
def c6_result : Bool × CatalogData :=
  update_catalog c6_catalog c6_new_products [] (extract_sheet_models c6_cur)
    SaveOutcome.success

/-- Existing catalog entry for the duplicate-model scenario. -/
def p7_old : Product := mkProduct "Alpha" "M1" "C1"

/-- A new product carrying a model number already present in the catalog. -/
def p7_dup : Product := mkProduct "AlphaV2" "M1" "C1"

/-- One-entry catalog whose non-empty model numbers are unique. -/
def cat7 : CatalogData :=
  { metadata := meta0, products := [p7_old] }

/-- A new product with a fresh model number. -/
def p7_new : Product := mkProduct "Beta" "M2" "C2"

/-- First snapshot of the stale-save scenario. -/
def c8_snapA : List (List String) := [["h"], ["r1"]]

/-- Second snapshot of the stale-save scenario: the single data row changed. -/
def c8_snapB : List (List String) := [["h"], ["r2"]]

/-- Fingerprint file after a first poll of `c8_snapA` whose save succeeds. -/
def c8_file1 : Option Fingerprint :=
  save_metadata_file SaveOutcome.success none
    (detect_changes (load_metadata none LoadOutcome.ok) c8_snapA).2

/-- Fingerprint file after a second poll, of `c8_snapB`, whose save fails:
the error is swallowed and the file keeps the first poll's fingerprint. -/
def c8_file2 : Option Fingerprint :=
  save_metadata_file SaveOutcome.ioError c8_file1
    (detect_changes (load_metadata c8_file1 LoadOutcome.ok) c8_snapB).2

/-- Change set of a third poll (fresh process, successful load) of
`c8_snapB` against the stale file. -/
def c8_third : Changes :=
  (detect_changes (load_metadata c8_file2 LoadOutcome.ok) c8_snapB).1

/-- Concrete new product for the save-failure scenario. -/
def p9 : Product := mkProduct "Gamma" "M9" "C9"

theorem rowHashes_append (xs ys : List (List String)) (s : Nat) :
    rowHashes (xs ++ ys) s = rowHashes xs s ++ rowHashes ys (s + xs.length) := by
  induction xs generalizing s with
  | nil => simp [rowHashes]
  | cons x xs ih =>
    have h : s + 1 + xs.length = s + (xs.length + 1) := by omega
    simp [rowHashes, ih, h]

theorem rowHashes_length (xs : List (List String)) (s : Nat) :
    (rowHashes xs s).length = xs.length := by
  induction xs generalizing s with
  | nil => rfl
  | cons x xs ih => simp [rowHashes, ih]

theorem assoc_get_rowHashes (rows : List (List String)) (s k : Nat) :
    assoc_get k (rowHashes rows s) =
      if s ≤ k ∧ k < s + rows.length then some (rows.getD (k - s) []) else none := by
  induction rows generalizing s with
  | nil =>
    simp only [rowHashes, assoc_get, List.length_nil]
    rw [if_neg (by omega)]
  | cons r rows ih =>
    simp only [rowHashes, assoc_get]
    by_cases hk : k = s
    · subst hk
      rw [if_pos rfl, if_pos (by simp only [List.length_cons]; omega)]
      simp
    · rw [if_neg hk, ih (s + 1)]
      by_cases hin : s + 1 ≤ k ∧ k < s + 1 + rows.length
      · rw [if_pos hin, if_pos (by simp only [List.length_cons]; omega)]
        have h1 : k - s = (k - (s + 1)) + 1 := by omega
        rw [h1]
        simp
      · rw [if_neg hin, if_neg (by simp only [List.length_cons]; omega)]

theorem mem_rowHashes (rows : List (List String)) (s : Nat) (p : Nat × List String)
    (hp : p ∈ rowHashes rows s) :
    s ≤ p.1 ∧ p.1 < s + rows.length ∧ p.2 = rows.getD (p.1 - s) [] := by
  induction rows generalizing s with
  | nil => simp [rowHashes] at hp
  | cons r rows ih =>
    simp only [rowHashes, List.mem_cons] at hp
    rcases hp with hp | hp
    · subst hp
      simp
    · obtain ⟨h1, h2, h3⟩ := ih (s + 1) hp
      refine ⟨by omega, by simp; omega, ?_⟩
      have h4 : p.1 - s = (p.1 - (s + 1)) + 1 := by omega
      rw [h4, List.getD_cons_succ, h3]

theorem find_modified_rows_of_same (curH prevH : List (Nat × List String))
    (cd : List (List String))
    (h : ∀ p ∈ curH, assoc_get p.1 prevH = some p.2) :
    find_modified_rows curH prevH cd = [] := by
  apply List.filterMap_eq_nil_iff.mpr
  intro p hp
  rw [h p hp]
  simp

theorem find_modified_rows_of_missing (curH prevH : List (Nat × List String))
    (cd : List (List String))
    (h : ∀ p ∈ curH, assoc_get p.1 prevH = none) :
    find_modified_rows curH prevH cd = [] := by
  apply List.filterMap_eq_nil_iff.mpr
  intro p hp
  rw [h p hp]

theorem find_deleted_rows_of_present (prevH curH : List (Nat × List String))
    (h : ∀ p ∈ prevH, (assoc_get p.1 curH).isSome) :
    find_deleted_rows prevH curH = [] := by
  apply List.filterMap_eq_nil_iff.mpr
  intro p hp
  have h2 := h p hp
  cases hg : assoc_get p.1 curH with
  | none => rw [hg] at h2; simp at h2
  | some v => simp [hg]

theorem find_modified_rows_append (a b prevH : List (Nat × List String))
    (cd : List (List String)) :
    find_modified_rows (a ++ b) prevH cd =
      find_modified_rows a prevH cd ++ find_modified_rows b prevH cd := by
  simp [find_modified_rows, List.filterMap_append]

theorem find_deleted_rows_append (a b curH : List (Nat × List String)) :
    find_deleted_rows (a ++ b) curH =
      find_deleted_rows a curH ++ find_deleted_rows b curH := by
  simp [find_deleted_rows, List.filterMap_append]

theorem getD_append_lt {α : Type} (l1 l2 : List α) (d : α) (n : Nat)
    (h : n < l1.length) :
    (l1 ++ l2).getD n d = l1.getD n d := by
  induction l1 generalizing n with
  | nil => simp at h
  | cons a t ih =>
    cases n with
    | zero => rfl
    | succ m =>
      simp only [List.cons_append, List.getD_cons_succ]
      exact ih m (by simp only [List.length_cons] at h; omega)

theorem getD_append_len {α : Type} (l1 : List α) (a : α) (l2 : List α) (d : α) :
    (l1 ++ a :: l2).getD l1.length d = a := by
  induction l1 with
  | nil => rfl
  | cons b t ih =>
    simp only [List.cons_append, List.length_cons, List.getD_cons_succ]
    exact ih

theorem getD_append_ge {α : Type} (l1 l2 : List α) (d : α) (n : Nat) :
    (l1 ++ l2).getD (l1.length + n) d = l2.getD n d := by
  induction l1 with
  | nil => simp
  | cons a t ih =>
    have h : (a :: t).length + n = (t.length + n) + 1 := by simp; omega
    rw [h]
    simp only [List.cons_append, List.getD_cons_succ]
    exact ih

theorem create_data_fingerprint_cons (H : List String) (D : List (List String)) :
    create_data_fingerprint (H :: D) =
      { row_count := D.length, data_hash := H :: D, row_hashes := rowHashes D 1 } := by
  simp [create_data_fingerprint]

theorem detect_changes_of_hash_eq (fp : Fingerprint) (data : List (List String))
    (h : (create_data_fingerprint data).data_hash = fp.data_hash) :
    detect_changes (some fp) data =
      ({ has_changes := false, new_rows := [], modified_rows := [], deleted_rows := []
         new_row_count := 0, modified_row_count := 0, deleted_row_count := 0
         total_rows := (create_data_fingerprint data).row_count
         previous_rows := fp.row_count }, create_data_fingerprint data) := by
  simp only [detect_changes]
  rw [if_pos (by rw [h]; exact rfl)]
  simp

theorem detect_changes_of_hash_ne (fp : Fingerprint) (data : List (List String))
    (h : (create_data_fingerprint data).data_hash ≠ fp.data_hash) :
    detect_changes (some fp) data =
      ({ has_changes := true
         new_rows :=
           if (create_data_fingerprint data).row_count > fp.row_count then
             data.drop (fp.row_count + 1)
           else []
         modified_rows :=
           find_modified_rows (create_data_fingerprint data).row_hashes fp.row_hashes data
         deleted_rows :=
           find_deleted_rows fp.row_hashes (create_data_fingerprint data).row_hashes
         new_row_count :=
           (if (create_data_fingerprint data).row_count > fp.row_count then
             data.drop (fp.row_count + 1)
           else []).length
         modified_row_count :=
           (find_modified_rows (create_data_fingerprint data).row_hashes fp.row_hashes data).length
         deleted_row_count :=
           (find_deleted_rows fp.row_hashes (create_data_fingerprint data).row_hashes).length
         total_rows := (create_data_fingerprint data).row_count
         previous_rows := fp.row_count }, create_data_fingerprint data) := by
  simp only [detect_changes]
  rw [if_neg (by simpa using h)]
  simp

theorem detect_changes_snd (prev : Option Fingerprint) (data : List (List String)) :
    (detect_changes prev data).2 = create_data_fingerprint data := by
  simp only [detect_changes]
  split <;> rfl

theorem find_modified_rows_sub (D : List (List String)) (s : Nat)
    (prevH : List (Nat × List String)) (cd : List (List String))
    (h : ∀ k, k < D.length → assoc_get (s + k) prevH = some (D.getD k [])) :
    find_modified_rows (rowHashes D s) prevH cd = [] := by
  apply find_modified_rows_of_same
  intro p hp
  obtain ⟨h1, h2, h3⟩ := mem_rowHashes D s p hp
  have h4 := h (p.1 - s) (by omega)
  rw [h3]
  have h5 : s + (p.1 - s) = p.1 := by omega
  rw [h5] at h4
  exact h4

theorem find_modified_rows_beyond (R prevD : List (List String)) (s : Nat)
    (cd : List (List String)) (h : 1 + prevD.length ≤ s) :
    find_modified_rows (rowHashes R s) (rowHashes prevD 1) cd = [] := by
  apply find_modified_rows_of_missing
  intro p hp
  obtain ⟨h1, h2, h3⟩ := mem_rowHashes R s p hp
  rw [assoc_get_rowHashes]
  rw [if_neg (by omega)]

theorem find_deleted_rows_sub (prevD : List (List String)) (t : Nat)
    (curD : List (List String)) (u : Nat)
    (h : ∀ k, t ≤ k → k < t + prevD.length → u ≤ k ∧ k < u + curD.length) :
    find_deleted_rows (rowHashes prevD t) (rowHashes curD u) = [] := by
  apply find_deleted_rows_of_present
  intro p hp
  obtain ⟨h1, h2, h3⟩ := mem_rowHashes prevD t p hp
  rw [assoc_get_rowHashes, if_pos (h p.1 h1 h2)]
  simp

/-- C2: calling `detect_changes` twice on the identical snapshot, with the
detector's metadata updated by the first call and no underlying change in
between, yields `has_changes = false` on the second call. -/
theorem C2_detect_changes_idempotent (m : Metadata) (now now2 : String)
    (data : List (List String)) :
    ((detect_changes_meta (detect_changes_meta m now data).2 now2 data).1).has_changes
      = false := by
  simp only [detect_changes_meta, detect_changes_snd]
  rw [detect_changes_of_hash_eq _ _ rfl]

/-- C10: every `detect_changes` call unconditionally stores the fingerprint
of the current snapshot and refreshes `last_sync` before returning — also
when no changes are reported and independently of any later catalog
processing — so a second poll of the same data reports no changes. -/
theorem C10_metadata_always_updated (m : Metadata) (now now2 : String)
    (data : List (List String)) :
    (detect_changes_meta m now data).2.sheet_fingerprint
        = some (create_data_fingerprint data) ∧
    (detect_changes_meta m now data).2.last_sync = some now ∧
    ((detect_changes_meta (detect_changes_meta m now data).2 now2 data).1).has_changes
        = false := by
  refine ⟨?_, rfl, ?_⟩
  · simp only [detect_changes_meta, detect_changes_snd]
  · simp only [detect_changes_meta, detect_changes_snd]
    rw [detect_changes_of_hash_eq _ _ rfl]

/-- C3: when the stored state is the fingerprint of a previous snapshot and
the current snapshot appends rows `R` at the end (header and existing data
rows unchanged), the detector reports exactly the rows of `R` as new and no
modified or deleted rows. -/
theorem C3_append_only_new_rows (H : List String) (D R : List (List String)) :
    (detect_changes (some (create_data_fingerprint (H :: D))) ((H :: D) ++ R)).1.new_rows
        = R ∧
    (detect_changes (some (create_data_fingerprint (H :: D))) ((H :: D) ++ R)).1.new_row_count
        = R.length ∧
    (detect_changes (some (create_data_fingerprint (H :: D))) ((H :: D) ++ R)).1.modified_rows
        = [] ∧
    (detect_changes (some (create_data_fingerprint (H :: D))) ((H :: D) ++ R)).1.modified_row_count
        = 0 ∧
    (detect_changes (some (create_data_fingerprint (H :: D))) ((H :: D) ++ R)).1.deleted_rows
        = [] ∧
    (detect_changes (some (create_data_fingerprint (H :: D))) ((H :: D) ++ R)).1.deleted_row_count
        = 0 := by
  by_cases hR : R = []
  · subst hR
    rw [List.append_nil, detect_changes_of_hash_eq _ _ rfl]
    simp
  · have hne : (create_data_fingerprint ((H :: D) ++ R)).data_hash
        ≠ (create_data_fingerprint (H :: D)).data_hash := by
      rw [List.cons_append, create_data_fingerprint_cons, create_data_fingerprint_cons]
      intro hc
      have h1 : D ++ R = D := by
        simpa using hc
      have h2 := congrArg List.length h1
      simp only [List.length_append] at h2
      have h3 : R.length = 0 := by omega
      exact hR (List.length_eq_zero.mp h3)
    rw [detect_changes_of_hash_ne _ _ hne]
    rw [List.cons_append, create_data_fingerprint_cons, create_data_fingerprint_cons]
    have hgt : (D ++ R).length > D.length := by
      simp only [List.length_append]
      have := List.length_pos.mpr hR
      omega
    rw [if_pos hgt]
    have hnew : (H :: (D ++ R)).drop (D.length + 1) = R := by
      rw [List.drop_succ_cons, List.drop_left]
    have hmod : find_modified_rows (rowHashes (D ++ R) 1) (rowHashes D 1)
        (H :: (D ++ R)) = [] := by
      rw [rowHashes_append, find_modified_rows_append]
      rw [find_modified_rows_sub D 1 (rowHashes D 1) _ (fun k hk => by
        rw [assoc_get_rowHashes, if_pos (by omega)]
        have h6 : 1 + k - 1 = k := by omega
        rw [h6])]
      rw [find_modified_rows_beyond R D (1 + D.length) _ (by omega)]
      rfl
    have hdel : find_deleted_rows (rowHashes D 1) (rowHashes (D ++ R) 1) = [] := by
      apply find_deleted_rows_sub
      intro k hk1 hk2
      simp only [List.length_append]
      omega
    rw [hnew, hmod, hdel]
    simp

theorem find_modified_rows_cons_found (i : Nat) (cur : List String)
    (t prevH : List (Nat × List String)) (cd : List (List String)) (ph : List String)
    (hget : assoc_get i prevH = some ph) (hne : ph ≠ cur) (hbound : i ≤ cd.length - 1) :
    find_modified_rows ((i, cur) :: t) prevH cd =
      ⟨i, cd.getD i [], ph, cur⟩ :: find_modified_rows t prevH cd := by
  simp only [find_modified_rows, List.filterMap_cons, hget]
  rw [if_pos ⟨hne, hbound⟩]

theorem find_deleted_rows_cons_missing (i : Nat) (ph : List String)
    (t curH : List (Nat × List String)) (hget : assoc_get i curH = none) :
    find_deleted_rows ((i, ph) :: t) curH = ⟨i, ph⟩ :: find_deleted_rows t curH := by
  simp only [find_deleted_rows, List.filterMap_cons, hget]

/-- C4: when the stored state is the fingerprint of a previous snapshot and
exactly one existing data row changes in place (position and row count
unchanged), the detector reports exactly one modified row whose `row_index`
is that row's 1-based index. -/
theorem C4_single_modified_row (H r r2 : List String) (D1 D2 : List (List String))
    (hrr : r ≠ r2) :
    (detect_changes (some (create_data_fingerprint (H :: (D1 ++ r :: D2))))
        (H :: (D1 ++ r2 :: D2))).1.modified_rows
      = [⟨D1.length + 1, r2, r, r2⟩] ∧
    (detect_changes (some (create_data_fingerprint (H :: (D1 ++ r :: D2))))
        (H :: (D1 ++ r2 :: D2))).1.modified_row_count = 1 ∧
    (detect_changes (some (create_data_fingerprint (H :: (D1 ++ r :: D2))))
        (H :: (D1 ++ r2 :: D2))).1.new_rows = [] ∧
    (detect_changes (some (create_data_fingerprint (H :: (D1 ++ r :: D2))))
        (H :: (D1 ++ r2 :: D2))).1.new_row_count = 0 ∧
    (detect_changes (some (create_data_fingerprint (H :: (D1 ++ r :: D2))))
        (H :: (D1 ++ r2 :: D2))).1.deleted_rows = [] ∧
    (detect_changes (some (create_data_fingerprint (H :: (D1 ++ r :: D2))))
        (H :: (D1 ++ r2 :: D2))).1.deleted_row_count = 0 := by
  have hne : (create_data_fingerprint (H :: (D1 ++ r2 :: D2))).data_hash
      ≠ (create_data_fingerprint (H :: (D1 ++ r :: D2))).data_hash := by
    rw [create_data_fingerprint_cons, create_data_fingerprint_cons]
    intro hc
    have h1 : D1 ++ r2 :: D2 = D1 ++ r :: D2 := by simpa using hc
    have h2 := congrArg (List.drop D1.length) h1
    rw [List.drop_left, List.drop_left] at h2
    have h3 : r2 = r := by simpa using h2
    exact hrr h3.symm
  rw [detect_changes_of_hash_ne _ _ hne]
  rw [create_data_fingerprint_cons, create_data_fingerprint_cons]
  have hcnt : ¬ ((D1 ++ r2 :: D2).length > (D1 ++ r :: D2).length) := by
    simp only [List.length_append, List.length_cons]
    omega
  rw [if_neg hcnt]
  have hmod : find_modified_rows (rowHashes (D1 ++ r2 :: D2) 1)
      (rowHashes (D1 ++ r :: D2) 1) (H :: (D1 ++ r2 :: D2))
      = [⟨D1.length + 1, r2, r, r2⟩] := by
    rw [rowHashes_append, find_modified_rows_append]
    rw [find_modified_rows_sub D1 1 _ _ (fun k hk => by
      rw [assoc_get_rowHashes]
      rw [if_pos (by simp only [List.length_append, List.length_cons]; omega)]
      have h6 : 1 + k - 1 = k := by omega
      rw [h6, getD_append_lt _ _ _ _ hk])]
    have hsing : rowHashes (r2 :: D2) (1 + D1.length)
        = (D1.length + 1, r2) :: rowHashes D2 (D1.length + 2) := by
      simp only [rowHashes]
      have h7 : 1 + D1.length = D1.length + 1 := by omega
      rw [h7]
    rw [hsing]
    rw [find_modified_rows_cons_found (D1.length + 1) r2 _ _ _ r
      (by
        rw [assoc_get_rowHashes]
        rw [if_pos (by simp only [List.length_append, List.length_cons]; omega)]
        have h9 : D1.length + 1 - 1 = D1.length := by omega
        rw [h9, getD_append_len])
      (fun hc => hrr hc)
      (by simp only [List.length_cons, List.length_append]; omega)]
    rw [find_modified_rows_sub D2 (D1.length + 2) _ _ (fun k hk => by
      rw [assoc_get_rowHashes]
      rw [if_pos (by simp only [List.length_append, List.length_cons]; omega)]
      have h10 : D1.length + 2 + k - 1 = D1.length + (k + 1) := by omega
      rw [h10, getD_append_ge]
      rw [List.getD_cons_succ])]
    have h11 : (H :: (D1 ++ r2 :: D2)).getD (D1.length + 1) [] = r2 := by
      rw [List.getD_cons_succ, getD_append_len]
    rw [h11]
    rfl
  have hdel : find_deleted_rows (rowHashes (D1 ++ r :: D2) 1)
      (rowHashes (D1 ++ r2 :: D2) 1) = [] := by
    apply find_deleted_rows_sub
    intro k hk1 hk2
    simp only [List.length_append, List.length_cons] at hk2 ⊢
    omega
  rw [hmod, hdel]
  simp

/-- C5: when the stored state is the fingerprint of a previous snapshot and
the current snapshot removes exactly the last data row, the detector reports
exactly one deleted row (at the removed row's 1-based index) and no new or
modified rows. -/
theorem C5_last_row_deleted (H rl : List String) (D : List (List String)) :
    (detect_changes (some (create_data_fingerprint (H :: (D ++ [rl]))))
        (H :: D)).1.deleted_rows = [⟨D.length + 1, rl⟩] ∧
    (detect_changes (some (create_data_fingerprint (H :: (D ++ [rl]))))
        (H :: D)).1.deleted_row_count = 1 ∧
    (detect_changes (some (create_data_fingerprint (H :: (D ++ [rl]))))
        (H :: D)).1.new_rows = [] ∧
    (detect_changes (some (create_data_fingerprint (H :: (D ++ [rl]))))
        (H :: D)).1.new_row_count = 0 ∧
    (detect_changes (some (create_data_fingerprint (H :: (D ++ [rl]))))
        (H :: D)).1.modified_rows = [] ∧
    (detect_changes (some (create_data_fingerprint (H :: (D ++ [rl]))))
        (H :: D)).1.modified_row_count = 0 := by
  have hne : (create_data_fingerprint (H :: D)).data_hash
      ≠ (create_data_fingerprint (H :: (D ++ [rl]))).data_hash := by
    rw [create_data_fingerprint_cons, create_data_fingerprint_cons]
    intro hc
    have h2 := congrArg List.length hc
    simp only [List.length_cons, List.length_append] at h2
    omega
  rw [detect_changes_of_hash_ne _ _ hne]
  rw [create_data_fingerprint_cons, create_data_fingerprint_cons]
  have hcnt : ¬ (D.length > (D ++ [rl]).length) := by
    simp only [List.length_append, List.length_cons]
    omega
  rw [if_neg hcnt]
  have hmod : find_modified_rows (rowHashes D 1) (rowHashes (D ++ [rl]) 1)
      (H :: D) = [] := by
    apply find_modified_rows_sub
    intro k hk
    rw [assoc_get_rowHashes]
    rw [if_pos (by simp only [List.length_append, List.length_cons]; omega)]
    have h6 : 1 + k - 1 = k := by omega
    rw [h6, getD_append_lt _ _ _ _ hk]
  have hdel : find_deleted_rows (rowHashes (D ++ [rl]) 1) (rowHashes D 1)
      = [⟨D.length + 1, rl⟩] := by
    rw [rowHashes_append, find_deleted_rows_append]
    rw [find_deleted_rows_sub D 1 D 1 (fun k hk1 hk2 => ⟨hk1, hk2⟩)]
    have hsing : rowHashes [rl] (1 + D.length)
        = [(D.length + 1, rl)] := by
      simp only [rowHashes]
      have h7 : 1 + D.length = D.length + 1 := by omega
      rw [h7]
    rw [hsing]
    rw [find_deleted_rows_cons_missing (D.length + 1) rl _ _ (by
      rw [assoc_get_rowHashes]
      rw [if_neg (by omega)])]
    rfl
  rw [hmod, hdel]
  simp

theorem C4_single_modified_row_witness :
    (detect_changes (some (create_data_fingerprint [["h"], ["a"]]))
        [["h"], ["b"]]).1.modified_rows = [⟨1, ["b"], ["a"], ["b"]⟩] ∧
    (detect_changes (some (create_data_fingerprint [["h"], ["a"]]))
        [["h"], ["b"]]).1.modified_row_count = 1 ∧
    (detect_changes (some (create_data_fingerprint [["h"], ["a"]]))
        [["h"], ["b"]]).1.new_rows = [] ∧
    (detect_changes (some (create_data_fingerprint [["h"], ["a"]]))
        [["h"], ["b"]]).1.new_row_count = 0 ∧
    (detect_changes (some (create_data_fingerprint [["h"], ["a"]]))
        [["h"], ["b"]]).1.deleted_rows = [] ∧
    (detect_changes (some (create_data_fingerprint [["h"], ["a"]]))
        [["h"], ["b"]]).1.deleted_row_count = 0 :=
  C4_single_modified_row ["h"] ["a"] ["b"] [] [] (by decide)

/-- C6 counterexample: in the spec's worked example the detector does report
one new and zero modified rows, but the entry the merge adds has an empty
model field, not `"M3"` — the row mapper only recognizes the header
`Model Number`, and the example's header is `Model`. -/
theorem C6_counterexample :
    c6_changes.new_row_count = 1 ∧
    c6_changes.modified_row_count = 0 ∧
    c6_result.2.products.map Product.model = ["M1", "M2", ""] ∧
    ¬ ("M3" ∈ c6_result.2.products.map Product.model) := by
  refine ⟨by decide, by decide, by decide, by decide⟩

/-- C6 as the code actually behaves: the worked example yields
`new_row_count = 1`, `modified_row_count = 0`, and the catalog gains exactly
one entry — named `"Widget"`, with model `""` because the header `Model`
does not match the mapper's `Model Number` lookup. -/
theorem C6_scenario_actual :
    c6_changes.new_row_count = 1 ∧
    c6_changes.modified_row_count = 0 ∧
    c6_result.1 = true ∧
    c6_result.2.products.length = c6_catalog.products.length + 1 ∧
    c6_result.2.products.map Product.name = ["Alpha", "Beta", "Widget"] ∧
    c6_result.2.products.map Product.model = ["M1", "M2", ""] := by
  refine ⟨by decide, by decide, by decide, by decide, by decide, by decide⟩

theorem detect_changes_of_none (data : List (List String)) :
    detect_changes none data =
      ({ has_changes := true
         new_rows :=
           if (create_data_fingerprint data).row_count > 0 then data.drop 1 else []
         modified_rows := find_modified_rows (create_data_fingerprint data).row_hashes [] data
         deleted_rows := find_deleted_rows [] (create_data_fingerprint data).row_hashes
         new_row_count :=
           (if (create_data_fingerprint data).row_count > 0 then data.drop 1 else []).length
         modified_row_count :=
           (find_modified_rows (create_data_fingerprint data).row_hashes [] data).length
         deleted_row_count :=
           (find_deleted_rows [] (create_data_fingerprint data).row_hashes).length
         total_rows := (create_data_fingerprint data).row_count
         previous_rows := 0 }, create_data_fingerprint data) := by
  simp only [detect_changes]
  rw [if_neg (by simp)]
  simp

theorem detect_changes_none_all_new (data : List (List String)) :
    (detect_changes none data).1.new_rows = data.drop 1 ∧
    (detect_changes none data).1.modified_rows = [] ∧
    (detect_changes none data).1.deleted_rows = [] ∧
    (detect_changes none data).1.previous_rows = 0 := by
  rw [detect_changes_of_none]
  refine ⟨?_, ?_, rfl, rfl⟩
  · show (if (create_data_fingerprint data).row_count > 0 then data.drop 1 else [])
      = data.drop 1
    cases data with
    | nil => rfl
    | cons H D =>
      rw [create_data_fingerprint_cons]
      show (if D.length > 0 then (H :: D).drop 1 else []) = (H :: D).drop 1
      by_cases hD : D = []
      · subst hD
        rfl
      · rw [if_pos (List.length_pos.mpr hD)]
  · show find_modified_rows (create_data_fingerprint data).row_hashes [] data = []
    apply find_modified_rows_of_missing
    intro p hp
    rfl

/-- C8, amended: no exception from metadata load or save ever reaches the
caller of `detect_changes`; an I/O error while loading is treated as no
prior state, so every data row of the snapshot is reported new; an I/O error
while saving leaves the previously persisted fingerprint file unchanged
(rather than resetting it to no prior state). -/
theorem C8_error_semantics (file : Option Fingerprint) (lo : LoadOutcome)
    (so : SaveOutcome) (data : List (List String)) :
    detect_changes_full file lo so data
      = Except.ok ((detect_changes (load_metadata file lo) data).1,
          save_metadata_file so file (detect_changes (load_metadata file lo) data).2) ∧
    (lo = LoadOutcome.ioError →
      (detect_changes (load_metadata file lo) data).1.new_rows = data.drop 1 ∧
      (detect_changes (load_metadata file lo) data).1.modified_rows = [] ∧
      (detect_changes (load_metadata file lo) data).1.deleted_rows = []) ∧
    (so = SaveOutcome.ioError →
      save_metadata_file so file (detect_changes (load_metadata file lo) data).2 = file) := by
  refine ⟨rfl, ?_, ?_⟩
  · intro h
    subst h
    exact ⟨(detect_changes_none_all_new data).1, (detect_changes_none_all_new data).2.1,
      (detect_changes_none_all_new data).2.2.1⟩
  · intro h
    subst h
    rfl

theorem C8_error_semantics_witness :
    (detect_changes (load_metadata (some (create_data_fingerprint c8_snapA))
        LoadOutcome.ioError) c8_snapB).1.new_rows = c8_snapB.drop 1 ∧
    save_metadata_file SaveOutcome.ioError (some (create_data_fingerprint c8_snapA))
        (detect_changes (load_metadata (some (create_data_fingerprint c8_snapA))
          LoadOutcome.ioError) c8_snapB).2
      = some (create_data_fingerprint c8_snapA) :=
  ⟨((C8_error_semantics (some (create_data_fingerprint c8_snapA)) LoadOutcome.ioError
      SaveOutcome.ioError c8_snapB).2.1 rfl).1,
    (C8_error_semantics (some (create_data_fingerprint c8_snapA)) LoadOutcome.ioError
      SaveOutcome.ioError c8_snapB).2.2 rfl⟩

/-- C8 counterexample: after a poll whose metadata save fails, the file
keeps the previous fingerprint, so the next run diffs against that stale
state instead of treating everything as new — it reports one modified row
and no new rows, not "every row looks new". -/
theorem C8_counterexample :
    c8_file2 = some (create_data_fingerprint c8_snapA) ∧
    c8_third.new_rows = [] ∧
    c8_third.new_rows ≠ c8_snapB.drop 1 ∧
    c8_third.modified_row_count = 1 := by
  refine ⟨by decide, by decide, by decide, by decide⟩

/-- C9, amended: an exception during the catalog save is re-raised by the
save routine itself, but `update_catalog` catches every exception from its
body and returns `false`; the caller of the merge observes a normal boolean
failure, not a propagated exception, and the previously persisted catalog is
left in place. -/
theorem C9_save_error_behavior (catalog : CatalogData)
    (np mp : List Product) (models : List String) (pd : CatalogData)
    (h : ¬ (np = [] ∧ mp = [] ∧ models = [])) :
    save_products SaveOutcome.ioError pd = Except.error "Error saving products" ∧
    update_catalog catalog np mp models SaveOutcome.ioError = (false, catalog) := by
  refine ⟨rfl, ?_⟩
  simp only [update_catalog, save_products]
  rw [if_neg h]

theorem C9_save_error_behavior_witness :
    save_products SaveOutcome.ioError cat_empty = Except.error "Error saving products" ∧
    update_catalog cat_empty [p9] [] ["M9"] SaveOutcome.ioError = (false, cat_empty) :=
  C9_save_error_behavior cat_empty [p9] [] ["M9"] cat_empty (by decide)

/-- C9 counterexample: with a failing save, the inner save routine raises,
yet the merge returns normally with `false` — the caller that requested the
catalog update does not observe the exception. -/
theorem C9_counterexample :
    update_catalog cW [p9] [] ["M9"] SaveOutcome.ioError = (false, cW) ∧
    save_products SaveOutcome.ioError
        (update_metadata_stats
          { cW with products := cW.products ++ [p9] })
      = Except.error "Error saving products" := by
  refine ⟨by decide, rfl⟩

theorem eraseIdx_append_length {α : Type} (pre : List α) (a : α) (rest : List α) :
    (pre ++ a :: rest).eraseIdx pre.length = pre ++ rest := by
  induction pre with
  | nil => rfl
  | cons b t ih =>
    simp only [List.cons_append, List.length_cons, List.eraseIdx_cons_succ]
    rw [ih]

theorem remove_by_indices_gen {α : Type} (cond : α → Bool) (l : List α) :
    ∀ pre : List α,
      ((enumFrom pre.length l).filter (fun ip => cond ip.2)).reverse.foldl
          (fun acc ip => acc.eraseIdx ip.1) (pre ++ l)
        = pre ++ l.filter (fun a => !cond a) := by
  induction l with
  | nil =>
    intro pre
    simp [enumFrom]
  | cons a t ih =>
    intro pre
    simp only [enumFrom, List.filter_cons]
    have hlen : pre.length + 1 = (pre ++ [a]).length := by simp
    have hLL : pre ++ a :: t = (pre ++ [a]) ++ t := by simp
    by_cases hc : cond a
    · rw [if_pos (by exact hc), List.reverse_cons, List.foldl_append]
      rw [hlen, hLL, ih (pre ++ [a])]
      simp only [List.foldl_cons, List.foldl_nil]
      have h1 : (pre ++ [a]) ++ t.filter (fun x => !cond x)
          = pre ++ a :: t.filter (fun x => !cond x) := by simp
      rw [h1, eraseIdx_append_length]
      rw [if_neg (by simp [hc])]
    · rw [if_neg (by simp [hc])]
      rw [hlen, hLL, ih (pre ++ [a])]
      rw [if_pos (by simp [hc])]
      simp

theorem remove_deleted_products_eq_filter (products : List Product)
    (models : List String) :
    (remove_deleted_products products models).1
      = products.filter (fun p => !(p.model != "" && !(models.contains p.model))) := by
  have h := remove_by_indices_gen
    (fun p : Product => p.model != "" && !(models.contains p.model)) products []
  simpa [remove_deleted_products] using h

theorem update_catalog_success_products (catalog : CatalogData)
    (np mp : List Product) (models : List String) (hm : models ≠ []) :
    (update_catalog catalog np mp models SaveOutcome.success).2.products
      = (remove_deleted_products
          (update_modified_products (catalog.products ++ np) mp).1 models).1 := by
  simp only [update_catalog, save_products, update_metadata_stats]
  rw [if_neg (fun hc => hm hc.2.2), if_pos hm]

/-- C1 counterexample: `update_catalog` never creates entries for sheet
models that have no catalog entry, so the persisted key set can be a strict
subset of the sheet's key set — starting from an empty catalog with sheet
models `["M1"]`, the catalog stays empty. -/
theorem C1_counterexample :
    ¬ (∀ m : String,
        m ∈ (update_catalog cat_empty [] [] ["M1"]
              SaveOutcome.success).2.products.map Product.model
          ↔ m ∈ (["M1"] : List String)) := by
  intro h
  have h2 := (h "M1").mpr (by decide)
  have h3 : (update_catalog cat_empty [] [] ["M1"]
      SaveOutcome.success).2.products.map Product.model = [] := by decide
  rw [h3] at h2
  simp at h2

/-- C1, amended: after `update_catalog` with a non-empty sheet-model list
and a successful save, every persisted entry with a non-empty model number
has its model among the sheet's models (no orphans remain); the converse
inclusion does not hold, since missing entries are not created. -/
theorem C1_no_orphans (catalog : CatalogData) (np mp : List Product)
    (models : List String) (hm : models ≠ []) (p : Product)
    (hp : p ∈ (update_catalog catalog np mp models SaveOutcome.success).2.products)
    (hne : p.model ≠ "") :
    p.model ∈ models := by
  rw [update_catalog_success_products catalog np mp models hm,
    remove_deleted_products_eq_filter] at hp
  have h2 := (List.mem_filter.mp hp).2
  simp only [Bool.not_eq_true', Bool.and_eq_false_iff, bne_eq_false_iff_eq,
    Bool.not_eq_false] at h2
  rcases h2 with h2 | h2
  · exact absurd h2 hne
  · simp only [Bool.not_eq_false'] at h2
    exact List.mem_of_elem_eq_true h2

theorem C1_no_orphans_witness : pW.model ∈ (["M1"] : List String) :=
  C1_no_orphans cW [] [] ["M1"] (by decide) pW (by decide) (by decide)

theorem find_model_idx_some (model : String) (l : List Product) (i : Nat)
    (h : find_model_idx model l = some i) :
    ∃ q, l.get? i = some q ∧ q.model = model := by
  induction l generalizing i with
  | nil => simp [find_model_idx] at h
  | cons p t ih =>
    simp only [find_model_idx] at h
    by_cases hp : p.model = model
    · rw [if_pos hp] at h
      injection h with h
      subst h
      exact ⟨p, rfl, hp⟩
    · rw [if_neg hp] at h
      cases hf : find_model_idx model t with
      | none => rw [hf] at h; simp at h
      | some j =>
        rw [hf] at h
        simp only [Option.map] at h
        injection h with h
        subst h
        obtain ⟨q, hq1, hq2⟩ := ih j hf
        exact ⟨q, by simpa using hq1, hq2⟩

theorem pairwise_set_model_eq (l : List Product) (i : Nat) (p2 : Product)
    (hmodel : ∀ q, l.get? i = some q → p2.model = q.model)
    (h : l.Pairwise ModelDistinct) :
    (l.set i p2).Pairwise ModelDistinct := by
  induction l generalizing i with
  | nil => simp [List.set]
  | cons a t ih =>
    cases i with
    | zero =>
      have hm := hmodel a rfl
      rw [List.set_cons_zero]
      rw [List.pairwise_cons] at h ⊢
      refine ⟨?_, h.2⟩
      intro b hb hne
      rw [hm] at hne ⊢
      exact h.1 b hb hne
    | succ j =>
      rw [List.set_cons_succ]
      rw [List.pairwise_cons] at h ⊢
      refine ⟨?_, ih j (fun q hq => hmodel q (by simpa using hq)) h.2⟩
      intro b hb
      by_cases hj : t.length ≤ j
      · rw [List.set_eq_of_length_le hj] at hb
        exact h.1 b hb
      · rcases List.mem_or_eq_of_mem_set hb with hb2 | hb2
        · exact h.1 b hb2
        · subst hb2
          push_neg at hj
          have hq : t.get? j = some (t.get ⟨j, hj⟩) := List.get?_eq_get hj
          have hm := hmodel (t.get ⟨j, hj⟩) (by simp [hq])
          intro hne
          rw [hm]
          exact h.1 _ (List.get_mem t j hj) hne

theorem update_modified_products_pairwise (products mods : List Product)
    (h : products.Pairwise ModelDistinct) :
    (update_modified_products products mods).1.Pairwise ModelDistinct := by
  have H : ∀ st : List Product × Nat, st.1.Pairwise ModelDistinct →
      (List.foldl (fun st mp =>
        if mp.model = "" then st
        else
          match find_model_idx mp.model st.1 with
          | some i => (st.1.set i (clean_product mp), st.2 + 1)
          | none => st) st mods).1.Pairwise ModelDistinct := by
    induction mods with
    | nil => intro st hst; exact hst
    | cons mp mods ih =>
      intro st hst
      rw [List.foldl_cons]
      apply ih
      by_cases hm : mp.model = ""
      · rw [if_pos hm]; exact hst
      · rw [if_neg hm]
        cases hidx : find_model_idx mp.model st.1 with
        | none => exact hst
        | some i =>
          show (st.1.set i (clean_product mp)).Pairwise ModelDistinct
          obtain ⟨q, hq, hqm⟩ := find_model_idx_some mp.model st.1 i hidx
          apply pairwise_set_model_eq st.1 i (clean_product mp) ?_ hst
          intro q2 hq2
          rw [hq] at hq2
          injection hq2 with hq2
          rw [← hq2, hqm]
          rfl
  exact H (products, 0) h

/-- C7 counterexample: appending a new product whose model already exists in
the catalog creates a duplicate — the merge performs no duplicate detection
on insert, so uniqueness of non-empty model numbers is not preserved. -/
theorem C7_counterexample :
    (update_catalog cat7 [p7_dup] [] ["M1"]
        SaveOutcome.success).2.products.map Product.model = ["M1", "M1"] ∧
    ¬ (update_catalog cat7 [p7_dup] [] ["M1"]
        SaveOutcome.success).2.products.Pairwise ModelDistinct := by
  refine ⟨by decide, by decide⟩

/-- C7, amended: the merge preserves uniqueness of non-empty model numbers
provided the new products' non-empty models are pairwise distinct and absent
from the catalog; modified-product updates replace the first entry with the
matching model (preserving its model) and deletions only remove entries, but
new-product insertion performs no duplicate detection, so no last-writer-wins
deduplication happens for inserts. -/
theorem C7_model_uniqueness (catalog : CatalogData) (np mp : List Product)
    (models : List String) (so : SaveOutcome)
    (h1 : catalog.products.Pairwise ModelDistinct)
    (h2 : np.Pairwise ModelDistinct)
    (h3 : ∀ q ∈ np, q.model ≠ "" → ∀ p ∈ catalog.products, p.model ≠ q.model) :
    (update_catalog catalog np mp models so).2.products.Pairwise ModelDistinct := by
  have happ : (catalog.products ++ np).Pairwise ModelDistinct := by
    rw [List.pairwise_append]
    refine ⟨h1, h2, ?_⟩
    intro a ha b hb hane
    by_cases hbm : b.model = ""
    · intro hc
      rw [hbm] at hc
      exact hane hc
    · exact h3 b hb hbm a ha
  have hup : (update_modified_products (catalog.products ++ np) mp).1.Pairwise
      ModelDistinct :=
    update_modified_products_pairwise _ mp happ
  by_cases hearly : np = [] ∧ mp = [] ∧ models = []
  · simp only [update_catalog]
    rw [if_pos hearly]
    exact h1
  · cases so with
    | success =>
      by_cases hms : models = []
      · have hprod : (update_catalog catalog np mp models SaveOutcome.success).2.products
            = (update_modified_products (catalog.products ++ np) mp).1 := by
          simp only [update_catalog, save_products, update_metadata_stats]
          rw [if_neg hearly, if_neg (not_not_intro hms)]
        rw [hprod]
        exact hup
      · rw [update_catalog_success_products catalog np mp models hms,
          remove_deleted_products_eq_filter]
        exact hup.filter _
    | ioError =>
      have hprod : (update_catalog catalog np mp models SaveOutcome.ioError).2
          = catalog := by
        simp only [update_catalog, save_products]
        rw [if_neg hearly]
      rw [hprod]
      exact h1

theorem C7_model_uniqueness_witness :
    (update_catalog cat7 [p7_new] [] ["M1", "M2"]
        SaveOutcome.success).2.products.Pairwise ModelDistinct :=
  C7_model_uniqueness cat7 [p7_new] [] ["M1", "M2"] SaveOutcome.success
    (by decide) (by decide) (by decide)
